import Mathlib

/-!
Verification of the behaviour of the commit-message generator script
(git-smart-commit.py) against its specification.

The Python functions relevant to the claims are shallowly embedded below:
pure string manipulation is translated to executable Lean functions over
`String` / `List Char`, the external model invocation and the filesystem
are abstracted as explicit outcome values (`Except`, oracle records), and
the interactive loop is modelled as a step function over an explicit state
record.  Character positions are code-point indices, matching Python
string indexing.
-/

/-! ## Basic Python string primitives -/

/-- Whitespace class of Python `str.strip` / regex `\s` restricted to ASCII
(space, tab, newline, carriage return, vertical tab, form feed).  Python
also strips rare Unicode spaces, which never occur in the literals of the
script. -/
def isPySpace (c : Char) : Bool :=
  c == ' ' || c == '\t' || c == '\n' || c == '\r' ||
  c == Char.ofNat 11 || c == Char.ofNat 12

/-- Python `str.strip()` on a list of characters: drop leading and trailing
whitespace. -/
def pyStripL (cs : List Char) : List Char :=
  ((cs.dropWhile isPySpace).reverse.dropWhile isPySpace).reverse

/-- Python `str.strip()`. -/
def pyStrip (s : String) : String :=
  String.mk (pyStripL s.toList)

/-- Value of Python `int` on a non-empty string of ASCII digits. -/
def digitsToNat (ds : List Char) : Nat :=
  ds.foldl (fun acc c => 10 * acc + (c.toNat - 48)) 0

/-- `occursIn pat s` is true iff `pat` occurs as a contiguous substring of
`s` (Python `pat in s`). -/
def occursIn (pat : String) (s : String) : Bool :=
  (List.range (s.toList.length + 1)).any
    (fun i => pat.toList.isPrefixOf (s.toList.drop i))

/-- First occurrence split: `splitFirst sep cs = some (before, after)` when
`sep` occurs in `cs`, splitting at the leftmost occurrence and dropping the
separator; `none` when `sep` does not occur. -/
def splitFirst (sep : List Char) : List Char → Option (List Char × List Char)
  | [] => none
  | c :: cs =>
      if sep.isPrefixOf (c :: cs) then some ([], (c :: cs).drop sep.length)
      else
        match splitFirst sep cs with
        | some (f, r) => some (c :: f, r)
        | none => none

/-- Fuel-driven worker for `pySplit`; the fuel `cs.length + 1` always
suffices because each found separator occurrence consumes at least one
character. -/
def pySplitGo (sep : List Char) : Nat → List Char → List (List Char)
  | 0, cs => [cs]
  | fuel + 1, cs =>
      match splitFirst sep cs with
      | none => [cs]
      | some (f, r) => f :: pySplitGo sep fuel r

/-- Python `str.split(sep)` for a non-empty separator: split at every
non-overlapping occurrence of `sep`, scanning left to right. -/
def pySplit (sep : List Char) (cs : List Char) : List (List Char) :=
  pySplitGo sep (cs.length + 1) cs

/-- Python `str.split(sep)` on `String`. -/
def pySplitS (sep : String) (s : String) : List String :=
  (pySplit sep.toList s.toList).map String.mk

/-! ## Marker scanning (git-smart-commit.py, parse_multiple_commits,
lines 365-392)

The marker regexes of the script all have the shape
`<keyword>\s*(\d+)\s*<colon-class>`.  Because the character classes
`\s`, `\d` and the colon class are pairwise disjoint, the greedy regex
match is deterministic: maximal whitespace run, then a non-empty maximal
digit run, then a maximal whitespace run, then one colon character. -/

/-- Attempt to match one marker `<kw>\s*(\d+)\s*<colon>` at the head of
`cs`.  Returns the numeric group and the total matched length. -/
def matchMarker (kw : List Char) (colons : List Char) (cs : List Char) :
    Option (Nat × Nat) :=
  if kw.isPrefixOf cs then
    let r1 := cs.drop kw.length
    let sp1 := r1.takeWhile isPySpace
    let r2 := r1.drop sp1.length
    let ds := r2.takeWhile Char.isDigit
    if ds = [] then none
    else
      let r3 := r2.drop ds.length
      let sp2 := r3.takeWhile isPySpace
      let r4 := r3.drop sp2.length
      match r4 with
      | [] => none
      | c :: _ =>
          if colons.contains c then
            some (digitsToNat ds, kw.length + sp1.length + ds.length + sp2.length + 1)
          else none
  else none

/-- Worker for `findMarkers`, mirroring `re.finditer`: scan left to right;
on a match, record `(number, start, end)` and resume scanning at the match
end (matches are non-overlapping); otherwise advance one character.  The
fuel `cs.length` suffices since every match has length at least one. -/
def findMarkersGo (kw colons : List Char) :
    Nat → List Char → Nat → List (Nat × Nat × Nat)
  | 0, _, _ => []
  | _ + 1, [], _ => []
  | fuel + 1, c :: cs, pos =>
      match matchMarker kw colons (c :: cs) with
      | some (num, len) =>
          (num, pos, pos + len) ::
            findMarkersGo kw colons fuel ((c :: cs).drop len) (pos + len)
      | none => findMarkersGo kw colons fuel cs (pos + 1)

/-- All matches of one marker pattern in `cs`, as `(number, start, end)`
triples in scan order (Python `list(re.finditer(pattern, response))`). -/
def findMarkers (kw colons : List Char) (cs : List Char) :
    List (Nat × Nat × Nat) :=
  findMarkersGo kw colons cs.length cs 0

/-- Python `str.lower()`, character-wise; `Char.toLower` lowers the ASCII
range, which covers every string the script compares case-insensitively
(CJK characters are fixed points of both functions). -/
def pyLower (s : String) : String :=
  String.mk (s.toList.map Char.toLower)

/-- Language test of the script: `language.lower() == "chinese" or
language.lower() == "中文"`. -/
def isChineseLang (language : String) : Bool :=
  pyLower language == "chinese" || pyLower language == "中文"

/-- The marker pattern families tried in priority order
(lines 366-377 of the script), as keyword plus colon character class.
The second Chinese pattern of the source differs from the first only in
the listing order of its (identical) colon class. -/
def optionPatterns (language : String) : List (String × List Char) :=
  if isChineseLang language then
    [("选项", [':', '：']), ("选项", ['：', ':']), ("方案", [':', '：'])]
  else
    [("Option", [':']), ("OPTION", [':']), ("Alternative", [':'])]

/-- The `option_positions` collection loop (lines 379-392): for each
pattern family in order, take all matches whose numeric group lies in
`[1, num_options]`; stop at the first family yielding a non-empty in-range
set. -/
def collectPositions :
    List (String × List Char) → Nat → List Char → List (Nat × Nat × Nat)
  | [], _, _ => []
  | (kw, cols) :: rest, n, cs =>
      if (findMarkers kw.toList cols cs).filter
          (fun m => decide (1 ≤ m.1 ∧ m.1 ≤ n)) = [] then
        collectPositions rest n cs
      else
        (findMarkers kw.toList cols cs).filter
          (fun m => decide (1 ≤ m.1 ∧ m.1 ≤ n))

/-- Stable insertion (before the first strictly greater start position)
used by `sortByStart`. -/
def insertByStart (m : Nat × Nat × Nat) :
    List (Nat × Nat × Nat) → List (Nat × Nat × Nat)
  | [] => [m]
  | x :: xs => if m.2.1 ≤ x.2.1 then m :: x :: xs else x :: insertByStart m xs

/-- `option_positions.sort(key=lambda x: x[1])` (line 398): stable sort by
start position, as insertion sort. -/
def sortByStart (l : List (Nat × Nat × Nat)) : List (Nat × Nat × Nat) :=
  l.foldr insertByStart []

/-- Slicing loop of lines 400-411: the content of candidate `i` is the
stripped text between the end of marker `i` and the start of marker `i+1`;
the tail after the last marker belongs to the last candidate. -/
def sliceOptions (cs : List Char) : List (Nat × Nat × Nat) → List String
  | [] => []
  | [m] => [String.mk (pyStripL (cs.drop m.2.2))]
  | m :: m' :: rest =>
      String.mk (pyStripL ((cs.drop m.2.2).take (m'.2.1 - m.2.2))) ::
        sliceOptions cs (m' :: rest)

/-! ## Loose keyword split and finalisation (lines 423-451) -/

/-- `re.sub(r"^\d+\s*[:：]", "", part)`: remove one leading
digits-whitespace-colon token when present. -/
def stripNumColon (cs : List Char) : List Char :=
  if cs.takeWhile Char.isDigit = [] then cs
  else
    match (cs.drop (cs.takeWhile Char.isDigit).length).dropWhile isPySpace with
    | c :: t => if c = ':' ∨ c = '：' then t else cs
    | [] => cs

/-- Loop of lines 432-438: for each fragment after the keyword, if its
stripped form is non-empty, append the stripped de-numbered fragment; stop
once `num_options` candidates are collected. -/
def collectLoose : List String → Nat → List String → List String
  | [], _, acc => acc
  | p :: ps, n, acc =>
      if pyStrip p ≠ "" then
        if n ≤ (acc ++ [pyStrip (String.mk (stripNumColon p.toList))]).length then
          acc ++ [pyStrip (String.mk (stripNumColon p.toList))]
        else collectLoose ps n (acc ++ [pyStrip (String.mk (stripNumColon p.toList))])
      else collectLoose ps n acc

/-- Padding loop of lines 444-445 (`while len < num_options: append`),
driven by the exact number of missing entries as fuel. -/
def padGo (n : Nat) : Nat → List String → List String
  | 0, acc => acc
  | fuel + 1, acc =>
      if acc.length < n then
        padGo n fuel (acc ++ ["选项 " ++ toString (acc.length + 1) ++ " (生成失败)"])
      else acc

/-- Pad `opts` with `选项 k (生成失败)` placeholders, numbered from
`opts.length + 1`, until at least `n` entries exist. -/
def padOptions (n : Nat) (opts : List String) : List String :=
  padGo n (n - opts.length) opts

/-- Lines 443-449: pad to `n` entries, then truncate when more than `n`
were produced. -/
def finalizeOptions (n : Nat) (opts : List String) : List String :=
  if n < (padOptions n opts).length then (padOptions n opts).take n
  else padOptions n opts

/-- Tiers 3 and 4 of the parser (lines 423-451): split on the bare keyword
(`"选项"` / `"Option"`); when this yields more than one fragment, collect
de-numbered fragments after the first (introductory) one, otherwise the
whole response is the sole candidate; then pad/truncate to `num_options`. -/
def looseSplit (response : String) (num_options : Nat) (language : String) :
    List String :=
  finalizeOptions num_options
    (if 1 < (pySplitS (if isChineseLang language then "选项" else "Option") response).length then
      collectLoose
        ((pySplitS (if isChineseLang language then "选项" else "Option") response).drop 1)
        num_options []
    else [response])

/-- `parse_multiple_commits(response, num_options, language)`
(lines 360-451).  Control flow of the source: when the in-range marker
scan found at least one marker, the marker-position split is computed and
returned when it has exactly `num_options` pieces, otherwise the parser
falls directly to the loose keyword split (the triple-newline split is
guarded by `if not option_positions`); when no marker was found, the
triple-newline split is tried, then the loose keyword split. -/
def parse_multiple_commits (response : String) (num_options : Nat)
    (language : String) : List String :=
  if collectPositions (optionPatterns language) num_options response.toList = [] then
    if num_options ≤ (pySplitS "\n\n\n" response).length then
      ((pySplitS "\n\n\n" response).take num_options).map pyStrip
    else looseSplit response num_options language
  else
    if (sliceOptions response.toList
        (sortByStart (collectPositions (optionPatterns language) num_options response.toList))).length
        = num_options then
      sliceOptions response.toList
        (sortByStart (collectPositions (optionPatterns language) num_options response.toList))
    else looseSplit response num_options language

/-! ## generate_commit_message (lines 267-358)

Prompt construction and the `ollama` subprocess call are abstracted: an
`LLMOutcome` records whether `subprocess.run` returned stdout text, raised
`CalledProcessError`, raised `FileNotFoundError`, or raised another
exception, the four cases distinguished by the source's handlers. -/

/-- Outcome of the `ollama run` invocation of lines 324-334. -/
inductive LLMOutcome where
  | ok (stdout : String)
  | calledProcessError (err : String)
  | fileNotFound
  | otherError (err : String)
deriving DecidableEq

/-- Return value of `generate_commit_message`: a bare string when
`num_options == 1`, a list when several options were requested. -/
inductive GenResult where
  | single (s : String)
  | multi (l : List String)
deriving DecidableEq

/-- The candidate list the interactive session works on (line 611:
`current_options = commit_options if isinstance(commit_options, list)
else [commit_options]`). -/
def GenResult.candidates : GenResult → List String
  | .single s => [s]
  | .multi l => l

/-- `format_options(options, language)` (lines 792-800), used at line 596
to render the candidate set first presented to the user: one
`--- Option i ---` (or `--- 选项 i ---`) block per candidate, numbered
from 1, joined by blank lines. -/
def format_options (options : List String) (language : String) : String :=
  String.intercalate "\n\n"
    (((List.range options.length).zip options).map (fun p =>
      if isChineseLang language then
        "--- 选项 " ++ toString (p.1 + 1) ++ " ---\n" ++ p.2
      else
        "--- Option " ++ toString (p.1 + 1) ++ " ---\n" ++ p.2))

/-- `generate_commit_message` after the subprocess call (lines 335-358):
on success the trimmed stdout (or a fixed fallback text when stdout is
empty) is parsed into options iff `num_options > 1`; each exception
handler returns a fixed failure string, wrapped in a singleton list iff
`num_options > 1`. -/
def generate_commit_message (outcome : LLMOutcome) (language : String)
    (num_options : Nat) : GenResult :=
  match outcome with
  | .ok stdout =>
      if 1 < num_options then
        .multi (parse_multiple_commits
          (if stdout = "" then "LLM没有返回任何输出" else pyStrip stdout)
          num_options language)
      else
        .single (if stdout = "" then "LLM没有返回任何输出" else pyStrip stdout)
  | .calledProcessError _ =>
      if 1 < num_options then .multi ["LLM调用失败"] else .single "LLM调用失败"
  | .fileNotFound =>
      if 1 < num_options then .multi ["LLM调用失败：未找到ollama命令"]
      else .single "LLM调用失败：未找到ollama命令"
  | .otherError e =>
      if 1 < num_options then .multi ["LLM调用异常: " ++ e]
      else .single ("LLM调用异常: " ++ e)

/-! ## process_submodules (lines 199-265)

The filesystem and the git queries are abstracted as an oracle record;
`os.chdir` is modelled by the `cwd` field of the scan state.  The body of
the per-entry loop (lines 218-262) is a `try`/`except`/`finally` block
whose `finally` clause is `os.chdir(current_dir)`; the query oracle
returns `Except` so that the exception path of that block is covered. -/

/-- Filesystem and git oracle for the submodule scan. -/
structure SubmoduleEnv where
  /-- `os.path.isdir(submodule_path)` (line 227). -/
  isDir : String → Bool
  /-- `os.path.isdir(".git") or os.path.isfile(".git")` inside the
  submodule (line 239). -/
  isGitRepo : String → Bool
  /-- Outcome of the work done inside the `try` block while querying the
  `old..new` commit subjects (lines 246-255); `.error` is any exception
  propagating to the `except` clause of line 257. -/
  gitLog : String → String → String → Except String String

/-- Mutable state of the scan: the process working directory and the
accumulated `submodule_summary` string. -/
structure SubmoduleScanState where
  cwd : String
  summary : String
deriving DecidableEq

/-- One iteration of the loop of lines 218-262 for a matched entry
`(path, old_hash, new_hash)`.  A missing directory is skipped before any
`chdir`; otherwise the directory is entered, and every exit path — the
not-a-repository `continue`, the successful query, and the exception
handler — runs the `finally` clause restoring `current_dir`. -/
def processSubmoduleEntry (env : SubmoduleEnv)
    (path old_hash new_hash : String) (st : SubmoduleScanState) :
    SubmoduleScanState :=
  if env.isDir path = false then st
  else
    -- current_dir = os.getcwd(); os.chdir(submodule_path)
    match ({ st with cwd := path } : SubmoduleScanState) with
    | st1 =>
      if env.isGitRepo path = false then
        { st1 with cwd := st.cwd }  -- explicit chdir back, then continue
      else
        match env.gitLog path old_hash new_hash with
        | .ok sub_commits =>
            if sub_commits ≠ "" then
              { cwd := st.cwd,
                summary := st1.summary ++ "Submodule " ++ path ++ " 更新:\n"
                  ++ sub_commits ++ "\n\n" }
            else { st1 with cwd := st.cwd }
        | .error _ => { st1 with cwd := st.cwd }

/-- The whole scan over the regex-extracted
`(path, old_hash, new_hash)` entries. -/
def process_submodules (env : SubmoduleEnv)
    (entries : List (String × String × String)) (st : SubmoduleScanState) :
    SubmoduleScanState :=
  entries.foldl (fun acc e => processSubmoduleEntry env e.1 e.2.1 e.2.2 acc) st

/-! ## Interactive session (lines 522-821)

The conversation history, menu dispatch and free-text handling of
`interactive_session` are embedded as pure step functions over an explicit
`LoopState`; terminal input and the model subprocess are oracle values. -/

/-- One message of `MessageHistory` (lines 522-555). -/
inductive Msg where
  | system (content : String)
  | assistant (content : String)
  | user (content : String)
deriving DecidableEq

/-- `MessageHistory.get_conversation(max_length)` (lines 538-551): format
the last `max_length` messages (all of them when `none`) with the fixed
role labels and join with blank lines.  The source only calls this with
`max_length=10`, for which Python `messages[-10:]` equals
`drop (length - 10)`. -/
def get_conversation (messages : List Msg) (max_length : Option Nat) : String :=
  String.intercalate "\n\n"
    ((match max_length with
      | none => messages
      | some k => messages.drop (messages.length - k)).map
      (fun m => match m with
        | Msg.system c => "系统: " ++ c
        | Msg.assistant c => "助手: " ++ c
        | Msg.user c => "用户: " ++ c))

/-- `build_conversation_prompt(history, language)` (lines 802-821). -/
def build_conversation_prompt (history : List Msg) (language : String) : String :=
  if isChineseLang language then
    "你是一个专业的Git提交信息助手。根据下面的对话历史和用户的最新请求，生成或修改Git提交信息。\n\n"
      ++ "对话历史:\n"
      ++ get_conversation history (some 10)
      ++ "\n\n请回复用户的请求，提供清晰的Git提交信息。回复应简洁、专业，集中在提交信息本身。"
      ++ "如果你生成或修改了提交信息，请确保遵循Git最佳实践：首行简短摘要，空行后详细描述。"
  else
    "You are a professional Git commit message assistant. Based on the conversation history and the user\x27s latest request, generate or modify a Git commit message.\n\n"
      ++ "Conversation history:\n"
      ++ get_conversation history (some 10)
      ++ "\n\nPlease respond to the user\x27s request, providing a clear Git commit message. Keep your response concise and professional, focusing on the commit message itself."
      ++ "If you generate or modify a commit message, ensure it follows Git best practices: short summary on first line, detailed description after a blank line."

/-! ## extract_commit_message (lines 764-790) -/

/-- Minimal-capture split for the lookahead `(?=$|\n\n)` of the message
patterns (with `re.DOTALL`, no `re.MULTILINE`): cut at the first position
whose remaining suffix is empty, is a single final newline (where `$`
matches), or starts with a blank line. -/
def minimalCut : List Char → List Char × List Char
  | [] => ([], [])
  | c :: rest =>
      if c :: rest = ['\n'] ∨ ['\n', '\n'].isPrefixOf (c :: rest) then
        ([], c :: rest)
      else
        ((minimalCut rest).1.cons c, (minimalCut rest).2)

/-- Case-insensitive prefix test (`re.IGNORECASE` on an ASCII literal). -/
def ciPrefix (label cs : List Char) : Bool :=
  (label.map Char.toLower).isPrefixOf (cs.map Char.toLower)

/-- Leftmost case-insensitive occurrence of `label`; returns the suffix
following the occurrence (the region the capture group scans). -/
def searchLabel (label : List Char) : List Char → Option (List Char)
  | [] => if ciPrefix label [] then some [] else none
  | c :: rest =>
      if ciPrefix label (c :: rest) then some ((c :: rest).drop label.length)
      else searchLabel label rest

/-- `re.search(label + r"(.*?)(?=$|\n\n)", response, IGNORECASE|DOTALL)`
followed by `.group(1).strip()`. -/
def extractByLabel (label : String) (response : List Char) : Option String :=
  match searchLabel label.toList response with
  | none => none
  | some rest => some (String.mk (pyStripL (minimalCut rest).1))

/-- `re.findall(r"```(?:markdown|md)?(.*?)```", response, DOTALL)`:
find an opening fence, consume an optional `markdown`/`md` tag (the
alternation prefers the longer literal and neither contains a backtick,
so greedy choice without backtracking is exact), then capture minimally
up to the next fence; repeat after the closing fence. -/
def findCodeBlocksGo : Nat → List Char → List (List Char)
  | 0, _ => []
  | fuel + 1, cs =>
      match splitFirst "```".toList cs with
      | none => []
      | some (_, afterOpen) =>
          match splitFirst "```".toList
              (if "markdown".toList.isPrefixOf afterOpen then afterOpen.drop 8
               else if "md".toList.isPrefixOf afterOpen then afterOpen.drop 2
               else afterOpen) with
          | none => []
          | some (content, afterClose) =>
              content :: findCodeBlocksGo fuel afterClose

/-- `extract_commit_message(response)` (lines 764-790): first non-blank
fenced code block, stripped; otherwise the first message pattern whose
label occurs, with its minimally captured group stripped; otherwise
`none`. -/
def extract_commit_message (response : String) : Option String :=
  match (findCodeBlocksGo response.toList.length response.toList).find?
      (fun b => decide (pyStripL b ≠ [])) with
  | some b => some (String.mk (pyStripL b))
  | none =>
      extractByLabel "提交信息:" response.toList <|>
      extractByLabel "commit message:" response.toList <|>
      extractByLabel "最终提交信息:" response.toList <|>
      extractByLabel "final commit message:" response.toList

/-! ## Interactive loop state and steps (lines 557-762) -/

/-- The mutable state of the interaction loop of `interactive_session`:
`current_options` (line 611, always a list), the
`has_interactive_result` / `latest_interactive_result` pair
(lines 613-615), and the message history. -/
structure LoopState where
  currentOptions : List String
  hasInteractiveResult : Bool
  latestInteractiveResult : Option String
  history : List Msg
deriving DecidableEq

/-- `valid_choices` of the menu shown at the top of each loop iteration
(lines 620-643): four entries after an interactive result, three
otherwise. -/
def validChoices (s : LoopState) : List String :=
  if s.hasInteractiveResult then ["1", "2", "3", "4"] else ["1", "2", "3"]

/-- Result of dispatching one validated menu choice. -/
inductive MenuResult where
  /-- loop exits with `selected_message` set. -/
  | selected (m : Option String)
  /-- "return to original options": interactive result cleared, loop
  continues. -/
  | backToOriginal (s : LoopState)
  /-- `return None`. -/
  | exited
  /-- multi-candidate direct selection: prompt for an option index. -/
  | askOptionIndex
  /-- natural-language interaction: prompt for free text. -/
  | askFreeText
deriving DecidableEq

/-- Menu dispatch of lines 654-696, in source order.  In the
`choice == "1"` branch the `isinstance(current_options, str)` disjunct of
line 676 is always false because `current_options` is made a list at
line 611, so only the length-1 test remains. -/
def interactiveMenuStep (s : LoopState) (choice : String) : MenuResult :=
  if s.hasInteractiveResult = true ∧ choice = "1" then
    .selected s.latestInteractiveResult
  else if s.hasInteractiveResult = true ∧ choice = "3" then
    .backToOriginal
      { s with hasInteractiveResult := false, latestInteractiveResult := none }
  else if s.hasInteractiveResult = true ∧ choice = "4" then .exited
  else if choice = "3" ∧ s.hasInteractiveResult = false then .exited
  else if choice = "1" ∧ s.hasInteractiveResult = false then
    if s.currentOptions.length = 1 then .selected s.currentOptions.head?
    else .askOptionIndex
  else .askFreeText

/-- The accept keywords of line 705. -/
def doneWords : List String := ["完成", "done", "accept", "使用", "使用这个"]

/-- The exit keywords of line 714. -/
def exitWords : List String := ["退出", "exit", "cancel", "quit", "q"]

/-- Classification of one free-text instruction (lines 698-723).  The
user message is first appended to the history (line 701); then the accept
keywords are checked (line 705, using the truthiness of
`latest_interactive_result`, so an empty-string result counts as absent),
then the exit keywords (line 714); any other instruction leads to a model
invocation with the generic conversation prompt (line 722). -/
inductive FreeTextAction where
  | finishWith (m : String)
  | notReady (s : LoopState)
  | exitSession
  | invoke (prompt : String) (s : LoopState)
deriving DecidableEq

/-- See `FreeTextAction`. -/
def freeTextClassify (language : String) (s : LoopState) (user_input : String) :
    FreeTextAction :=
  if doneWords.contains (pyLower user_input) then
    match s.latestInteractiveResult with
    | some m =>
        if m ≠ "" then .finishWith m
        else .notReady { s with history := s.history ++ [Msg.user user_input] }
    | none => .notReady { s with history := s.history ++ [Msg.user user_input] }
  else if exitWords.contains (pyLower user_input) then .exitSession
  else
    .invoke
      (build_conversation_prompt (s.history ++ [Msg.user user_input]) language)
      { s with history := s.history ++ [Msg.user user_input] }

/-- Observable result of one free-text handling round. -/
inductive LoopResult where
  /-- loop exits with `selected_message` set. -/
  | selected (m : Option String)
  /-- the loop shows the menu again in state `s`. -/
  | continueLoop (s : LoopState)
  /-- `return None`. -/
  | exitLoop
deriving DecidableEq

/-- Application of the model outcome to a classified action
(lines 725-760).  On success (`try` body): the trimmed reply is cleaned
by `extract_commit_message` (falling back to the reply when extraction
returns nothing or an empty string), appended to the history as an
assistant message, and installed as the latest interactive result.  On an
exception (`except` clause, line 758): the error is printed and the loop
continues with the state unchanged since the user message was added. -/
def applyFreeTextOutcome (action : FreeTextAction)
    (model : Except String String) : LoopResult :=
  match action with
  | .finishWith m => .selected (some m)
  | .notReady s1 => .continueLoop s1
  | .exitSession => .exitLoop
  | .invoke _ s1 =>
      match model with
      | .error _ => .continueLoop s1
      | .ok out =>
          match (if out = "" then "" else pyStrip out) with
          | response =>
            match (match extract_commit_message response with
                   | some m => if m ≠ "" then m else response
                   | none => response) with
            | commit_message =>
              .continueLoop
                { s1 with
                  history := s1.history ++ [Msg.assistant commit_message],
                  latestInteractiveResult := some commit_message,
                  hasInteractiveResult := true }

/-- One complete free-text round: classify the instruction, then apply
the model outcome. -/
def freeTextStep (language : String) (s : LoopState) (user_input : String)
    (model : Except String String) : LoopResult :=
  applyFreeTextOutcome (freeTextClassify language s user_input) model

/-! ## Helper lemmas -/

theorem pyStripL_eq_nil (cs : List Char) (h : pyStripL cs = []) :
    ∀ c ∈ cs, isPySpace c = true := by
  unfold pyStripL at h
  rw [List.reverse_eq_nil_iff] at h
  have h2 := List.dropWhile_eq_nil_iff.mp h
  have h3 : ∀ x ∈ cs.dropWhile isPySpace, isPySpace x = true :=
    fun x hx => h2 x (List.mem_reverse.mpr hx)
  intro c hc
  rw [← List.takeWhile_append_dropWhile (p := isPySpace) (l := cs)] at hc
  rcases List.mem_append.mp hc with h' | h'
  · exact List.mem_takeWhile_imp h'
  · exact h3 c h'

theorem pyStripL_ne_nil (cs : List Char) (c : Char) (hc : c ∈ cs)
    (hsp : isPySpace c = false) : pyStripL cs ≠ [] := by
  intro h
  have := pyStripL_eq_nil cs h c hc
  simp [hsp] at this

theorem isPrefixOf_false_of_occursIn_false (pat s : String)
    (hne : pat.toList ≠ []) (h : occursIn pat s = false) :
    ∀ i, pat.toList.isPrefixOf (s.toList.drop i) = false := by
  intro i
  by_cases hi : i < s.toList.length + 1
  · have hall := List.any_eq_false.mp h
    have h' := hall i (List.mem_range.mpr hi)
    simp only [Bool.not_eq_true] at h'
    exact h'
  · have hlen : s.toList.length ≤ i := by omega
    rw [List.drop_eq_nil_of_le hlen]
    cases hp : pat.toList with
    | nil => exact absurd hp hne
    | cons a t => rfl

theorem splitFirst_eq_none (sep : List Char) :
    ∀ cs : List Char, (∀ i, sep.isPrefixOf (cs.drop i) = false) →
      splitFirst sep cs = none
  | [], _ => rfl
  | c :: cs, h => by
      have h0 : sep.isPrefixOf (c :: cs) = false := by simpa using h 0
      have hrec := splitFirst_eq_none sep cs (fun i => by simpa using h (i + 1))
      simp [splitFirst, h0, hrec]

theorem pySplit_eq_single (sep cs : List Char)
    (h : splitFirst sep cs = none) : pySplit sep cs = [cs] := by
  simp [pySplit, pySplitGo, h]

theorem String_mk_toList (s : String) : String.mk s.toList = s := rfl

theorem pySplitS_eq_single (sep s : String) (hne : sep.toList ≠ [])
    (h : occursIn sep s = false) : pySplitS sep s = [s] := by
  have h1 : pySplit sep.toList s.toList = [s.toList] :=
    pySplit_eq_single sep.toList s.toList
      (splitFirst_eq_none sep.toList s.toList
        (isPrefixOf_false_of_occursIn_false sep s hne h))
  unfold pySplitS
  rw [h1]
  simp [String_mk_toList]

theorem findMarkersGo_eq_nil (kw colons : List Char) :
    ∀ (fuel : Nat) (cs : List Char) (pos : Nat),
      (∀ i, kw.isPrefixOf (cs.drop i) = false) →
      findMarkersGo kw colons fuel cs pos = [] := by
  intro fuel
  induction fuel with
  | zero => intro cs pos _; cases cs <;> rfl
  | succ fuel ih =>
      intro cs pos h
      cases cs with
      | nil => rfl
      | cons c t =>
          have h0 : kw.isPrefixOf (c :: t) = false := by simpa using h 0
          have hm : matchMarker kw colons (c :: t) = none := by
            simp [matchMarker, h0]
          simp only [findMarkersGo, hm]
          exact ih t (pos + 1) (fun i => by simpa using h (i + 1))

theorem findMarkers_eq_nil (kw colons : List Char) (s : String)
    (hkw : ∀ i, kw.isPrefixOf (s.toList.drop i) = false) :
    findMarkers kw colons s.toList = [] :=
  findMarkersGo_eq_nil kw colons s.toList.length s.toList 0 hkw

theorem insertByStart_length (m : Nat × Nat × Nat) :
    ∀ l : List (Nat × Nat × Nat), (insertByStart m l).length = l.length + 1
  | [] => rfl
  | x :: xs => by
      simp only [insertByStart]
      split
      · simp
      · simp [insertByStart_length m xs]

theorem sortByStart_length (l : List (Nat × Nat × Nat)) :
    (sortByStart l).length = l.length := by
  unfold sortByStart
  induction l with
  | nil => rfl
  | cons x xs ih => simp [insertByStart_length, ih]

theorem sliceOptions_length (cs : List Char) :
    ∀ l : List (Nat × Nat × Nat), (sliceOptions cs l).length = l.length
  | [] => rfl
  | [_] => rfl
  | _ :: m' :: rest => by
      simp only [sliceOptions, List.length_cons]
      rw [sliceOptions_length cs (m' :: rest)]
      simp

/-- The marker slices depend only on the `(start, end)` spans, not on the
numeric labels the markers carry. -/
theorem sliceOptions_ext (cs : List Char) :
    ∀ ps qs : List (Nat × Nat × Nat),
      ps.map (fun m => m.2) = qs.map (fun m => m.2) →
      sliceOptions cs ps = sliceOptions cs qs
  | [], [], _ => rfl
  | [], _ :: _, h => by simp at h
  | _ :: _, [], h => by simp at h
  | [p], [q], h => by
      simp only [List.map_cons, List.map_nil, List.cons.injEq, and_true] at h
      simp [sliceOptions, h]
  | [_], _ :: _ :: _, h => by simp at h
  | _ :: _ :: _, [_], h => by simp at h
  | p :: p' :: ps, q :: q' :: qs, h => by
      simp only [List.map_cons, List.cons.injEq] at h
      obtain ⟨h1, h2, h3⟩ := h
      have hrec := sliceOptions_ext cs (p' :: ps) (q' :: qs)
        (by simp [h2, h3])
      simp only [sliceOptions, h1, h2, hrec]

theorem le_length_padGo (n : Nat) :
    ∀ (fuel : Nat) (acc : List String), n - acc.length ≤ fuel →
      n ≤ (padGo n fuel acc).length := by
  intro fuel
  induction fuel with
  | zero => intro acc h; simp only [padGo]; omega
  | succ fuel ih =>
      intro acc h
      simp only [padGo]
      split
      · next hlt =>
          apply ih
          simp only [List.length_append, List.length_cons, List.length_nil]
          omega
      · next hge => omega

theorem finalizeOptions_length (n : Nat) (opts : List String) :
    (finalizeOptions n opts).length = n := by
  have h := le_length_padGo n (n - opts.length) opts (Nat.le_refl _)
  unfold finalizeOptions padOptions at *
  split
  · next hlt => simp only [List.length_take]; omega
  · next hge => omega

theorem looseSplit_length (response : String) (n : Nat) (language : String) :
    (looseSplit response n language).length = n := by
  unfold looseSplit
  exact finalizeOptions_length n _

/-- Totality and cardinality of the parser: every path returns exactly
`num_options` candidates. -/
theorem parse_multiple_commits_length (response : String) (n : Nat)
    (language : String) :
    (parse_multiple_commits response n language).length = n := by
  unfold parse_multiple_commits
  split
  · split
    · next hle =>
        simp only [List.length_map, List.length_take]
        omega
    · exact looseSplit_length response n language
  · split
    · next heq => exact heq
    · exact looseSplit_length response n language

/-! ## Claim theorems -/

/-- C1: for every response string, every `expected_count` in `1..5` and
either language, `parse_multiple_commits` — a total Lean function, hence
never failing — returns an ordered list of exactly `expected_count`
strings; short fallback results are padded and long ones truncated, which
is witnessed by the unconditional length invariant. -/
theorem parser_total_returns_expected_count (response : String) (n : Nat)
    (language : String) (h1 : 1 ≤ n) (h2 : n ≤ 5) :
    (parse_multiple_commits response n language).length = n :=
  parse_multiple_commits_length response n language

theorem parser_total_returns_expected_count_witness :
    1 ≤ 3 ∧ 3 ≤ 5 ∧
    (parse_multiple_commits "Option 1: A\n\nOption 2: B" 3 "english").length = 3 :=
  ⟨by decide, by decide,
    parser_total_returns_expected_count "Option 1: A\n\nOption 2: B" 3 "english"
      (by decide) (by decide)⟩

/-- C2 fails on the code: when the model invocation fails (here: the
`ollama` binary is not found) with `option_count = 3`, the candidate set
handed to the interactive session (line 611) is the singleton failure
entry, not a three-element set, and the rendering first presented to the
user (line 596) accordingly shows a single option block. -/
theorem candidate_set_cardinality_counterexample :
    (generate_commit_message LLMOutcome.fileNotFound "english" 3).candidates
      = ["LLM调用失败：未找到ollama命令"] ∧
    (generate_commit_message LLMOutcome.fileNotFound "english" 3).candidates.length
      ≠ 3 ∧
    format_options
        (generate_commit_message LLMOutcome.fileNotFound "english" 3).candidates
        "english"
      = "--- Option 1 ---\nLLM调用失败：未找到ollama命令" := by
  exact ⟨rfl, by decide, rfl⟩

/-- C2 amended: when more than one candidate is requested, the candidate
set first presented to the user has exactly `N` entries in every run in
which the model invocation returns output; when the invocation fails
(binary not found, nonzero exit, or another exception) the presented set
is instead exactly the corresponding single failure-sentinel entry. -/
theorem candidate_set_cardinality_amended (stdout e language : String)
    (n : Nat) (h : 1 < n) :
    (generate_commit_message (LLMOutcome.ok stdout) language n).candidates.length = n ∧
    (generate_commit_message (LLMOutcome.calledProcessError e) language n).candidates
      = ["LLM调用失败"] ∧
    (generate_commit_message LLMOutcome.fileNotFound language n).candidates
      = ["LLM调用失败：未找到ollama命令"] ∧
    (generate_commit_message (LLMOutcome.otherError e) language n).candidates
      = ["LLM调用异常: " ++ e] := by
  refine ⟨?_, ?_, ?_, ?_⟩ <;>
    simp [generate_commit_message, h, GenResult.candidates,
      parse_multiple_commits_length]

theorem candidate_set_cardinality_amended_witness :
    1 < 3 ∧
    ((generate_commit_message (LLMOutcome.ok "whatever") "english" 3).candidates.length = 3 ∧
     (generate_commit_message (LLMOutcome.calledProcessError "boom") "english" 3).candidates
       = ["LLM调用失败"] ∧
     (generate_commit_message LLMOutcome.fileNotFound "english" 3).candidates
       = ["LLM调用失败：未找到ollama命令"] ∧
     (generate_commit_message (LLMOutcome.otherError "boom") "english" 3).candidates
       = ["LLM调用异常: " ++ "boom"]) :=
  ⟨by decide, candidate_set_cardinality_amended "whatever" "boom" "english" 3 (by decide)⟩

/-- C9 fails on the code: with `option_count = 1` and a model output
consisting of a single space — a non-empty string, so the empty-output
fallback is not taken — the sole candidate is the empty string. -/
theorem single_option_empty_counterexample :
    generate_commit_message (LLMOutcome.ok " ") "english" 1
      = GenResult.single "" := rfl

/-- C9 amended: with `option_count = 1` the parser is never invoked — the
result is always `single` of the trimmed raw output (or the fixed fallback
text for empty output) — and the sole candidate is non-empty whenever the
model output contains any non-whitespace character; a non-empty
all-whitespace output, however, yields the empty string as sole
candidate. -/
theorem single_option_verbatim_amended (stdout language : String) :
    generate_commit_message (LLMOutcome.ok stdout) language 1
      = GenResult.single
          (if stdout = "" then "LLM没有返回任何输出" else pyStrip stdout) ∧
    ((∃ c ∈ stdout.toList, isPySpace c = false) →
      generate_commit_message (LLMOutcome.ok stdout) language 1
        = GenResult.single (pyStrip stdout) ∧ pyStrip stdout ≠ "") := by
  refine ⟨rfl, ?_⟩
  rintro ⟨c, hc, hcs⟩
  have hne : ¬ stdout = "" := by
    intro he
    subst he
    simp at hc
  have hnil : pyStripL stdout.toList ≠ [] := pyStripL_ne_nil _ c hc hcs
  refine ⟨by simp [generate_commit_message, hne], ?_⟩
  intro hcontra
  apply hnil
  have h2 : (pyStrip stdout).toList = ("" : String).toList := by rw [hcontra]
  simpa [pyStrip] using h2

theorem single_option_verbatim_amended_witness :
    (∃ c ∈ ("Fix bug" : String).toList, isPySpace c = false) ∧
    (generate_commit_message (LLMOutcome.ok "Fix bug") "english" 1
        = GenResult.single (pyStrip "Fix bug") ∧ pyStrip "Fix bug" ≠ "") :=
  ⟨by decide, (single_option_verbatim_amended "Fix bug" "english").2 (by decide)⟩

/-- C3 fails on the code: here the marker scan finds one in-range marker,
the marker split yields 1 ≠ 2 pieces, and the response contains two
triple-newline separators (three pieces ≥ 2) — yet the parser does not
apply the triple-newline split (whose result would be
`["Option 1: A", "B"]`) but falls directly to the loose keyword split. -/
theorem triple_newline_precedence_counterexample :
    parse_multiple_commits "Option 1: A\n\n\nB\n\n\nC" 2 "english"
      = ["1: A\n\n\nB\n\n\nC", "选项 2 (生成失败)"] ∧
    parse_multiple_commits "Option 1: A\n\n\nB\n\n\nC" 2 "english"
      ≠ ((pySplitS "\n\n\n" "Option 1: A\n\n\nB\n\n\nC").take 2).map pyStrip := by
  exact ⟨by decide, by decide⟩

/-- C3 amended: the triple-newline split is applied exactly when the
marker scan found no in-range marker occurrence at all; in that case the
response is split on three consecutive newlines and the first
`expected_count` stripped pieces are accepted whenever at least that many
exist.  When in-range markers were found but their count differs from
`expected_count`, the parser skips the triple-newline split and proceeds
directly to the loose keyword split. -/
theorem triple_newline_precedence_amended (response : String) (n : Nat)
    (language : String)
    (h1 : collectPositions (optionPatterns language) n response.toList = [])
    (h2 : n ≤ (pySplitS "\n\n\n" response).length) :
    parse_multiple_commits response n language
      = ((pySplitS "\n\n\n" response).take n).map pyStrip := by
  unfold parse_multiple_commits
  rw [if_pos h1, if_pos h2]

theorem triple_newline_precedence_amended_witness :
    collectPositions (optionPatterns "english") 2 ("A\n\n\nB\n\n\nC").toList = [] ∧
    2 ≤ (pySplitS "\n\n\n" "A\n\n\nB\n\n\nC").length ∧
    parse_multiple_commits "A\n\n\nB\n\n\nC" 2 "english"
      = ((pySplitS "\n\n\n" "A\n\n\nB\n\n\nC").take 2).map pyStrip ∧
    parse_multiple_commits "A\n\n\nB\n\n\nC" 2 "english" = ["A", "B"] :=
  ⟨by decide, by decide,
    triple_newline_precedence_amended "A\n\n\nB\n\n\nC" 2 "english"
      (by decide) (by decide),
    by decide⟩

/-- C6 fails on the code: `"Optionally, improve logs"` contains no option
marker (no `Option N:`-style label) and no triple newline, yet the parser
does not reach the degenerate whole-response fallback: the loose keyword
split fires on the bare substring `"Option"`, so the first returned
element is not the entire response. -/
theorem degenerate_fallback_counterexample :
    parse_multiple_commits "Optionally, improve logs" 3 "english"
      = ["ally, improve logs", "选项 2 (生成失败)", "选项 3 (生成失败)"] ∧
    "ally, improve logs" ≠ "Optionally, improve logs" := by
  exact ⟨by decide, by decide⟩

/-- C6 amended: for every English-mode response containing no occurrence
of the marker keywords (`"Option"`, `"OPTION"`, `"Alternative"`) and no
three consecutive newlines, with `expected_count = 3`, the parser falls
through to the degenerate fallback and returns the entire response
followed by the two sequentially numbered placeholder entries
`"选项 2 (生成失败)"`, `"选项 3 (生成失败)"`, in that order. -/
theorem degenerate_fallback_amended (r : String)
    (h1 : occursIn "Option" r = false) (h2 : occursIn "OPTION" r = false)
    (h3 : occursIn "Alternative" r = false)
    (h4 : occursIn "\n\n\n" r = false) :
    parse_multiple_commits r 3 "english"
      = [r, "选项 2 (生成失败)", "选项 3 (生成失败)"] := by
  have p1 : findMarkers "Option".toList [':'] r.toList = [] :=
    findMarkers_eq_nil _ _ r
      (isPrefixOf_false_of_occursIn_false "Option" r (by decide) h1)
  have p2 : findMarkers "OPTION".toList [':'] r.toList = [] :=
    findMarkers_eq_nil _ _ r
      (isPrefixOf_false_of_occursIn_false "OPTION" r (by decide) h2)
  have p3 : findMarkers "Alternative".toList [':'] r.toList = [] :=
    findMarkers_eq_nil _ _ r
      (isPrefixOf_false_of_occursIn_false "Alternative" r (by decide) h3)
  have hpat : optionPatterns "english"
      = [("Option", [':']), ("OPTION", [':']), ("Alternative", [':'])] := by
    decide
  have hpos : collectPositions (optionPatterns "english") 3 r.toList = [] := by
    rw [hpat]
    simp only [collectPositions, p1, p2, p3, List.filter_nil]
    rfl
  have hsp : pySplitS "\n\n\n" r = [r] :=
    pySplitS_eq_single "\n\n\n" r (by decide) h4
  have hkw : pySplitS "Option" r = [r] :=
    pySplitS_eq_single "Option" r (by decide) h1
  have hlang : (if isChineseLang "english" then "选项" else "Option")
      = "Option" := rfl
  unfold parse_multiple_commits looseSplit
  rw [if_pos hpos, hsp, if_neg (by simp), hlang, hkw, if_neg (by simp)]
  with_unfolding_all rfl

theorem degenerate_fallback_amended_witness :
    occursIn "Option" "Refactor config loading" = false ∧
    occursIn "OPTION" "Refactor config loading" = false ∧
    occursIn "Alternative" "Refactor config loading" = false ∧
    occursIn "\n\n\n" "Refactor config loading" = false ∧
    parse_multiple_commits "Refactor config loading" 3 "english"
      = ["Refactor config loading", "选项 2 (生成失败)", "选项 3 (生成失败)"] :=
  ⟨by decide, by decide, by decide, by decide,
    degenerate_fallback_amended "Refactor config loading"
      (by decide) (by decide) (by decide) (by decide)⟩

/-- C10: the marker-position split counts in-range marker occurrences by
position only.  Whenever the in-range marker scan yields exactly
`expected_count` matches — regardless of which (possibly repeated)
numeric labels they carry — the split is accepted, and the result is the
slices between consecutive position-sorted markers: any relabelling `qs`
of the sorted marker list with the same `(start, end)` spans produces the
returned candidate list. -/
theorem marker_split_position_based (response : String) (n : Nat)
    (language : String) (qs : List (Nat × Nat × Nat)) (h1 : 1 ≤ n)
    (h2 : (collectPositions (optionPatterns language) n response.toList).length = n)
    (h3 : qs.map (fun m => m.2)
      = (sortByStart (collectPositions (optionPatterns language) n response.toList)).map
          (fun m => m.2)) :
    parse_multiple_commits response n language
      = sliceOptions response.toList qs := by
  have hne : ¬ collectPositions (optionPatterns language) n response.toList = [] := by
    intro h
    rw [h] at h2
    simp at h2
    omega
  have hlen : (sliceOptions response.toList
      (sortByStart (collectPositions (optionPatterns language) n response.toList))).length
      = n := by
    rw [sliceOptions_length, sortByStart_length, h2]
  unfold parse_multiple_commits
  rw [if_neg hne, if_pos hlen]
  exact (sliceOptions_ext response.toList qs _ h3).symm

theorem marker_split_position_based_witness :
    1 ≤ 2 ∧
    (collectPositions (optionPatterns "english") 2
        ("Option 1: A\nOption 1: B").toList).length = 2 ∧
    ([(5, 0, 9), (7, 12, 21)] : List (Nat × Nat × Nat)).map (fun m => m.2)
      = (sortByStart (collectPositions (optionPatterns "english") 2
          ("Option 1: A\nOption 1: B").toList)).map (fun m => m.2) ∧
    parse_multiple_commits "Option 1: A\nOption 1: B" 2 "english"
      = sliceOptions ("Option 1: A\nOption 1: B").toList [(5, 0, 9), (7, 12, 21)] ∧
    parse_multiple_commits "Option 1: A\nOption 1: B" 2 "english" = ["A", "B"] :=
  ⟨by decide, by decide, by decide,
    marker_split_position_based "Option 1: A\nOption 1: B" 2 "english"
      [(5, 0, 9), (7, 12, 21)] (by decide) (by decide) (by decide),
    by decide⟩

set_option maxRecDepth 8000 in
/-- C4 fails on the code: the free-text handler of the interactive loop
contains no merge-pattern detection.  With three available candidates
(whose literal texts `alpha`, `beta`, `gamma` appear nowhere in the
history), the instruction `combine option 1 and option 3` is classified
exactly like the single-index instruction `merge option 1`: both are
appended to the history and sent with the generic conversation prompt,
and the prompt for the merge-like instruction does not contain the
literal text of the referenced candidates 1 and 3. -/
theorem merge_instruction_counterexample :
    freeTextClassify "english"
        ⟨["alpha", "beta", "gamma"], false, none, []⟩
        "combine option 1 and option 3"
      = FreeTextAction.invoke
          (build_conversation_prompt
            [Msg.user "combine option 1 and option 3"] "english")
          ⟨["alpha", "beta", "gamma"], false, none,
            [Msg.user "combine option 1 and option 3"]⟩ ∧
    freeTextClassify "english"
        ⟨["alpha", "beta", "gamma"], false, none, []⟩
        "merge option 1"
      = FreeTextAction.invoke
          (build_conversation_prompt [Msg.user "merge option 1"] "english")
          ⟨["alpha", "beta", "gamma"], false, none,
            [Msg.user "merge option 1"]⟩ ∧
    occursIn "alpha"
        (build_conversation_prompt
          [Msg.user "combine option 1 and option 3"] "english") = false ∧
    occursIn "gamma"
        (build_conversation_prompt
          [Msg.user "combine option 1 and option 3"] "english") = false := by
  exact ⟨rfl, rfl, by decide, by decide⟩

/-- C4 amended: the interactive refinement loop performs no merge-pattern
parsing at all.  Every free-text instruction whose lowercased text is
neither an accept keyword nor an exit keyword — merge-like instructions
such as `combine option 1 and option 3` and `merge option 1` included —
is handled uniformly: it is appended to the history and the model is
invoked with the generic conversation prompt built from the history; no
index extraction and no dedicated merge prompt built from candidate texts
exists. -/
theorem merge_instruction_amended (language : String) (s : LoopState)
    (user_input : String)
    (h1 : doneWords.contains (pyLower user_input) = false)
    (h2 : exitWords.contains (pyLower user_input) = false) :
    freeTextClassify language s user_input
      = FreeTextAction.invoke
          (build_conversation_prompt
            (s.history ++ [Msg.user user_input]) language)
          { s with history := s.history ++ [Msg.user user_input] } := by
  unfold freeTextClassify
  rw [h1, h2]
  simp

theorem merge_instruction_amended_witness :
    doneWords.contains (pyLower "combine option 1 and option 3") = false ∧
    exitWords.contains (pyLower "combine option 1 and option 3") = false ∧
    freeTextClassify "english"
        ⟨["alpha", "beta", "gamma"], false, none, []⟩
        "combine option 1 and option 3"
      = FreeTextAction.invoke
          (build_conversation_prompt
            (([] : List Msg) ++ [Msg.user "combine option 1 and option 3"])
            "english")
          { (⟨["alpha", "beta", "gamma"], false, none, []⟩ : LoopState) with
              history :=
                ([] : List Msg) ++ [Msg.user "combine option 1 and option 3"] } :=
  ⟨by decide, by decide,
    merge_instruction_amended "english"
      ⟨["alpha", "beta", "gamma"], false, none, []⟩
      "combine option 1 and option 3" (by decide) (by decide)⟩

/-- C5 fails on the code: a candidate set with exactly one entry does not
auto-advance to a confirmed selection.  The loop presents the
single-candidate menu (`valid_choices = ["1","2","3"]`), so the user is
asked for a menu choice, and entering `3` terminates the session with no
selected message — the single candidate does not become the selected
message without user input. -/
theorem single_candidate_autoadvance_counterexample :
    validChoices ⟨["fix: adjust parser"], false, none, []⟩ = ["1", "2", "3"] ∧
    interactiveMenuStep ⟨["fix: adjust parser"], false, none, []⟩ "3"
      = MenuResult.exited ∧
    MenuResult.exited ≠ MenuResult.selected (some "fix: adjust parser") := by
  exact ⟨rfl, rfl, by decide⟩

/-- C5 amended: with exactly one candidate and no interactive result yet,
the loop still asks for a menu choice (choices `1`-`3`); choosing `1`
then selects the sole candidate directly, without the option-index
sub-prompt used for larger candidate sets, while choosing `3` exits with
no selection. -/
theorem single_candidate_menu_amended (m : String) (hist : List Msg) :
    validChoices ⟨[m], false, none, hist⟩ = ["1", "2", "3"] ∧
    interactiveMenuStep ⟨[m], false, none, hist⟩ "1"
      = MenuResult.selected (some m) ∧
    interactiveMenuStep ⟨[m], false, none, hist⟩ "3" = MenuResult.exited := by
  refine ⟨rfl, ?_, rfl⟩
  unfold interactiveMenuStep
  simp

/-- C7: for every submodule entry processed by the scan, and for every
filesystem/git oracle — in particular when querying the commit subjects
inside the submodule raises an exception — the working directory after
processing the entry equals the working directory from before entering
the submodule directory. -/
theorem submodule_cwd_restored (env : SubmoduleEnv)
    (path old_hash new_hash : String) (st : SubmoduleScanState) :
    (processSubmoduleEntry env path old_hash new_hash st).cwd = st.cwd := by
  unfold processSubmoduleEntry
  split
  · rfl
  · split
    · rfl
    · split
      · split <;> rfl
      · rfl

/-- C8: an exception in the model invocation of the free-text round is
absorbed: for every instruction that is neither an accept nor an exit
keyword, the round returns `continueLoop` (the session does not terminate
abnormally) in a state whose candidate list, interactive-result fields
and prior history are unchanged — the history is extended exactly by the
user instruction recorded before the invocation. -/
theorem invoke_exception_preserves_state (language : String) (s : LoopState)
    (user_input : String) (e : String)
    (h1 : doneWords.contains (pyLower user_input) = false)
    (h2 : exitWords.contains (pyLower user_input) = false) :
    freeTextStep language s user_input (Except.error e)
      = LoopResult.continueLoop
          { s with history := s.history ++ [Msg.user user_input] } := by
  unfold freeTextStep
  rw [merge_instruction_amended language s user_input h1 h2]
  rfl

theorem invoke_exception_preserves_state_witness :
    doneWords.contains (pyLower "add more detail about the tests") = false ∧
    exitWords.contains (pyLower "add more detail about the tests") = false ∧
    freeTextStep "english"
        ⟨["opt one", "opt two"], false, none, [Msg.system "context"]⟩
        "add more detail about the tests" (Except.error "ollama crashed")
      = LoopResult.continueLoop
          { (⟨["opt one", "opt two"], false, none,
              [Msg.system "context"]⟩ : LoopState) with
              history := [Msg.system "context"]
                ++ [Msg.user "add more detail about the tests"] } :=
  ⟨by decide, by decide,
    invoke_exception_preserves_state "english"
      ⟨["opt one", "opt two"], false, none, [Msg.system "context"]⟩
      "add more detail about the tests" "ollama crashed"
      (by decide) (by decide)⟩
